import Mathlib

/-!
Verification of the core subsystem of the HuaiAn AI tour-guide application
(`app.py`): knowledge lookup, TF-IDF based question recommendation, rating,
streaming-response degradation, and chat-history persistence.

The Python functions are shallowly embedded as executable Lean definitions.
External libraries (pandas, sklearn, jieba, numpy randomness, the LLM client)
are modelled by explicit data parameters: the similarity vector produced by
the vectorizer is passed in as a list of rationals, the random source of
`random.sample` as a list of naturals, and the streaming service response as
an optional list of chunk contents.
-/

namespace HuaiAnApp

/-! ## Character case helpers

Embedding of the character-wise case mapping used by `str.lower()` and
`str.upper()` in `search_knowledge_context` (app.py line 886). We use the
basic-latin case maps `Char.toLower` and `Char.toUpper`, applied to the
character list of a string. -/

theorem char_toNat_ofNat_of_valid {n : Nat} (h : n.isValidChar) :
    (Char.ofNat n).toNat = n := by
  rw [Char.ofNat, dif_pos h]
  rfl

theorem char_toLower_toUpper (c : Char) : c.toUpper.toLower = c.toLower := by
  simp only [Char.toUpper, Char.toLower]
  by_cases h : c.toNat ≥ 97 ∧ c.toNat ≤ 122
  · rw [if_pos h]
    have hv : (c.toNat - 32).isValidChar := Or.inl (by omega)
    have ht : (Char.ofNat (c.toNat - 32)).toNat = c.toNat - 32 :=
      char_toNat_ofNat_of_valid hv
    rw [ht, if_pos (by omega), if_neg (by omega)]
    have : c.toNat - 32 + 32 = c.toNat := by omega
    rw [this, Char.ofNat_toNat]
  · rw [if_neg h]

/-- Character-wise lower-casing of a string, modelling Python `str.lower()`. -/
def strLower (s : String) : String := ⟨s.data.map Char.toLower⟩

/-- Character-wise upper-casing of a string, modelling Python `str.upper()`. -/
def strUpper (s : String) : String := ⟨s.data.map Char.toUpper⟩

theorem strLower_strUpper (s : String) : strLower (strUpper s) = strLower s := by
  simp only [strLower, strUpper, List.map_map]
  exact congrArg String.mk (List.map_congr_left fun c _ => char_toLower_toUpper c)

/-! ## Knowledge store -/

/-- One row of the knowledge base `huai-an_kb.xlsx` after `load_knowledge`:
columns 类别 (category), 问题 (question), 核心知识点 (context). -/
structure KnowledgeEntry where
  category : String
  question : String
  context : String
deriving DecidableEq

/-- The fixed sentinel context returned by `search_knowledge_context` when no
entry matches (app.py line 890). -/
def noMatchSentinel : String :=
  "在本地知识库中未找到与您输入完全匹配的问题。请根据我的已有知识进行回答。"

/-- Embedding of `search_knowledge_context(question, df)` (app.py lines
882-890): if the knowledge frame is empty or the question is the empty
string, return the empty string; otherwise return the context of the first
row whose lower-cased question equals the lower-cased query, and the sentinel
when there is none. -/
def search_knowledge_context (question : String) (df : List KnowledgeEntry) : String :=
  if df.isEmpty || question.data.isEmpty then ""
  else
    match df.find? (fun e => strLower e.question == strLower question) with
    | some e => e.context
    | none => noMatchSentinel

example :
    search_knowledge_context "ABC"
      [⟨"c", "abc", "ctx"⟩] = "ctx" := by decide

example :
    search_knowledge_context "zzz"
      [⟨"c", "abc", "ctx"⟩] = noMatchSentinel := by decide

example : search_knowledge_context "" [⟨"c", "abc", "ctx"⟩] = "" := by decide

theorem string_data_eq_nil_iff (s : String) : s.data = [] ↔ s = "" := by
  cases s with
  | mk d =>
    constructor
    · intro h
      subst h
      rfl
    · intro h
      rw [h]

/-- Claim C1: knowledge lookup is a case-insensitive exact match on the
question field. For every query string, looking up the query and looking up
its upper-cased form return the same context (in particular this holds for
every question present in the knowledge base), and for every non-empty
question that matches no entry of a non-empty knowledge base the lookup
returns the fixed no-exact-match sentinel string instead of failing. -/
theorem search_case_insensitive_exact_match (df : List KnowledgeEntry) (q : String) :
    search_knowledge_context q df = search_knowledge_context (strUpper q) df ∧
    (q ≠ "" → df ≠ [] →
      (∀ e ∈ df, strLower e.question ≠ strLower q) →
      search_knowledge_context q df = noMatchSentinel) := by
  constructor
  · rcases q with ⟨d⟩
    simp only [search_knowledge_context, strLower_strUpper]
    cases d with
    | nil => rfl
    | cons c cs => rfl
  · intro hq hdf hnone
    have hdf2 : df.isEmpty = false := by
      simp [hdf]
    have hq3 : q.data ≠ [] := fun hcon => hq ((string_data_eq_nil_iff q).mp hcon)
    have hq2 : q.data.isEmpty = false := by simp [hq3]
    have h2 : df.find? (fun e => strLower e.question == strLower q) = none :=
      List.find?_eq_none.mpr (fun e he => by simpa using hnone e he)
    simp [search_knowledge_context, hdf2, hq2, h2]

/-- A one-row knowledge base used to instantiate the lookup theorems. -/
def kbW : List KnowledgeEntry :=
  [⟨"History", "When was the canal built?", "Built in 605 CE."⟩]

/-- Witness for claim C1, at a knowledge base containing the question
"When was the canal built?" and at an unmatched question "zzz". -/
theorem search_case_insensitive_exact_match_witness :
    (search_knowledge_context "when was the canal BUILT?" kbW =
      search_knowledge_context (strUpper "when was the canal BUILT?") kbW) ∧
    ("zzz" ≠ "" ∧ kbW ≠ [] ∧ (∀ e ∈ kbW, strLower e.question ≠ strLower "zzz") ∧
      search_knowledge_context "zzz" kbW = noMatchSentinel) :=
  ⟨(search_case_insensitive_exact_match kbW "when was the canal BUILT?").1,
    by decide, by decide, by decide,
    (search_case_insensitive_exact_match kbW "zzz").2 (by decide) (by decide)
      (by decide)⟩

/-- Claim C9: when the query question is the empty string or the knowledge
base is empty, `search_knowledge_context` returns the empty string, which is
distinct from the no-exact-match sentinel, so the orchestrator receives an
empty context in those cases. -/
theorem search_empty_edge (df : List KnowledgeEntry) (q : String)
    (h : q = "" ∨ df = []) :
    search_knowledge_context q df = "" ∧ noMatchSentinel ≠ "" := by
  refine ⟨?_, by decide⟩
  rcases h with rfl | rfl
  · simp [search_knowledge_context]
  · simp [search_knowledge_context]

/-- Witness for claim C9, at the empty question over a non-empty knowledge
base. -/
theorem search_empty_edge_witness :
    (("" : String) = "" ∨ kbW = []) ∧
      (search_knowledge_context "" kbW = "" ∧ noMatchSentinel ≠ "") :=
  ⟨Or.inl rfl, search_empty_edge kbW "" (Or.inl rfl)⟩

/-! ## Session data model -/

/-- Role of a chat message. -/
inductive Role where
  | user
  | assistant
deriving DecidableEq

/-- Rating attached to an assistant message. -/
inductive Rating where
  | good
  | bad
deriving DecidableEq

/-- One entry of `st.session_state.messages`: role, content, persona and an
optional rating (absent until the message is rated). -/
structure Message where
  role : Role
  content : String
  persona : String
  rating : Option Rating := none
deriving DecidableEq

instance : Inhabited Message := ⟨⟨Role.user, "", "", none⟩⟩

/-! ## Similarity recommender

Embedding of `get_smart_recommendations(current_question, knowledge_df,
user_history, top_n)` (app.py lines 912-963). The TF-IDF cosine-similarity
vector computed by sklearn over the jieba-segmented corpus is passed in
explicitly as `vec = some scores` (one rational score per available
candidate, in candidate order); `vec = none` models the `except` branch in
which vectorization raised. The numpy `argsort` is modelled as a stable
ascending sort of the index list, and the Python slice `[-top_n:]` keeps its
quirk that a slice bound of `-0` means the whole list. `random.sample` is
modelled by drawing positions from an explicit oracle list. -/

/-- A returned recommendation dictionary `{question, similarity}`. -/
structure Recommendation where
  question : String
  similarity : ℚ
deriving DecidableEq

/-- Result of `get_smart_recommendations`: the TF-IDF path returns a list of
`Recommendation` dictionaries, while the exception fallback returns a list of
bare question strings (`random.sample(available_questions, ...)`). -/
inductive RecResult where
  | items : List Recommendation → RecResult
  | raw : List String → RecResult
deriving DecidableEq

/-- The questions mentioned in a recommendation result, on either shape. -/
def RecResult.questions : RecResult → List String
  | .items l => l.map (·.question)
  | .raw l => l

/-- Embedding of the local `history_questions` (app.py line 918): contents of user-role messages. -/
def historyQuestions (user_history : List Message) : List String :=
  (user_history.filter (fun m => decide (m.role = Role.user))).map (·.content)

/-- Embedding of the local `available_questions` (app.py lines 921-924): the knowledge-base
questions with the already-asked ones removed. -/
def availableQuestions (knowledge_df : List KnowledgeEntry)
    (user_history : List Message) : List String :=
  (knowledge_df.map (·.question)).filter
    (fun q => decide (q ∉ historyQuestions user_history))

/-- Stable insertion of index `i` into an index list ascending by score:
`i` goes after every index whose score is less than or equal to its own. -/
def insertIdx (scores : List ℚ) (i : Nat) : List Nat → List Nat
  | [] => [i]
  | j :: js =>
    if scores.getD j 0 ≤ scores.getD i 0 then j :: insertIdx scores i js
    else i :: j :: js

/-- Embedding of `similarity_scores.argsort()` (app.py line 949): the indices
`0, ..., scores.length - 1` sorted ascending by score, equal scores keeping
index order. -/
def argsort (scores : List ℚ) : List Nat :=
  (List.range scores.length).foldl (fun acc i => insertIdx scores i acc) []

/-- The Python slice `l[-n:]`: the last `n` elements, or all of `l` when
`n = 0` (because `-0` is `0`) or when `n` exceeds the length. -/
def lastSlice (n : Nat) (l : List α) : List α :=
  if n = 0 then l else l.drop (l.length - n)

/-- The similarity threshold 0.1 of app.py line 953, given in the normal form
`1/10` so that comparisons against it reduce in the kernel. -/
def simThreshold : ℚ := ⟨1, 10, by decide, Nat.coprime_one_left 10⟩

theorem simThreshold_eq : simThreshold = 1/10 := by
  show (⟨1, 10, by decide, Nat.coprime_one_left 10⟩ : ℚ) = 1/10
  rw [Rat.mk'_eq_divInt, Rat.divInt_eq_div]
  norm_num

/-- The TF-IDF branch of `get_smart_recommendations` (app.py lines 948-959):
take the indices of the `top_n` highest scores in descending order, drop
those with score at most 0.1, and return question/score dictionaries. -/
def tfidfRecs (available : List String) (scores : List ℚ) (top_n : Nat) :
    List Recommendation :=
  let top_indices := (lastSlice top_n (argsort scores)).reverse
  (top_indices.filter (fun i => decide (simThreshold < scores.getD i 0))).map
    (fun i => { question := available.getD i "", similarity := scores.getD i 0 })

/-- Embedding of `random.sample(population, k)` with the randomness supplied by `oracle`:
repeatedly pick the position `oracle-head mod remaining-length` and remove
the element there. Returns `k` distinct-position elements when
`k ≤ population.length`. -/
def randomSample : List α → Nat → List Nat → List α
  | _, 0, _ => []
  | [], _ + 1, _ => []
  | p :: ps, k + 1, oracle =>
    let i := oracle.headD 0 % (p :: ps).length
    (p :: ps).getD i p :: randomSample ((p :: ps).eraseIdx i) k oracle.tail

/-- Embedding of `get_smart_recommendations` (app.py lines 912-963). The
local Python variable `available_questions` is the helper
`availableQuestions knowledge_df user_history`. -/
def get_smart_recommendations (current_question : String)
    (knowledge_df : List KnowledgeEntry) (user_history : List Message)
    (top_n : Nat) (vec : Option (List ℚ)) (oracle : List Nat) : RecResult :=
  if knowledge_df.isEmpty || current_question.data.isEmpty then .items []
  else if (availableQuestions knowledge_df user_history).isEmpty then .items []
  else
    match vec with
    | some scores =>
      .items (tfidfRecs (availableQuestions knowledge_df user_history)
        scores top_n)
    | none =>
      .raw (randomSample (availableQuestions knowledge_df user_history)
        (min top_n (availableQuestions knowledge_df user_history).length)
        oracle)

example :
    get_smart_recommendations "x" [⟨"c", "a", ""⟩, ⟨"c", "b", ""⟩] [] 3
      (some [1, 1]) [] = .items [⟨"b", 1⟩, ⟨"a", 1⟩] := by decide

example :
    get_smart_recommendations "x" [⟨"c", "a", ""⟩] [] 0
      (some [1]) [] = .items [⟨"a", 1⟩] := by decide

example :
    get_smart_recommendations "x" [⟨"c", "a", ""⟩, ⟨"c", "b", ""⟩] [] 3
      none [1] = .raw ["b", "a"] := by decide

/-! ### Recommender lemmas -/

theorem mem_insertIdx {scores : List ℚ} {i x : Nat} :
    ∀ {l : List Nat}, x ∈ insertIdx scores i l ↔ x = i ∨ x ∈ l := by
  intro l
  induction l with
  | nil => simp [insertIdx]
  | cons j js ih =>
    simp only [insertIdx]
    split
    all_goals simp only [List.mem_cons, ih]
    all_goals tauto

theorem pairwise_insertIdx {scores : List ℚ} {i : Nat} :
    ∀ {l : List Nat},
      l.Pairwise (fun a b => scores.getD a 0 ≤ scores.getD b 0) →
      (insertIdx scores i l).Pairwise
        (fun a b => scores.getD a 0 ≤ scores.getD b 0) := by
  intro l
  induction l with
  | nil =>
    intro _
    simp [insertIdx]
  | cons j js ih =>
    intro h
    rcases List.pairwise_cons.mp h with ⟨hj, hjs⟩
    simp only [insertIdx]
    split
    · rename_i hji
      refine List.pairwise_cons.mpr ⟨?_, ih hjs⟩
      intro y hy
      rcases mem_insertIdx.mp hy with rfl | hy2
      · exact hji
      · exact hj y hy2
    · rename_i hji
      have hij : scores.getD i 0 ≤ scores.getD j 0 := le_of_not_le hji
      refine List.pairwise_cons.mpr ⟨?_, h⟩
      intro y hy
      rcases List.mem_cons.mp hy with rfl | hy2
      · exact hij
      · exact le_trans hij (hj y hy2)

theorem mem_foldl_insertIdx {scores : List ℚ} :
    ∀ (l acc : List Nat) (x : Nat),
      x ∈ l.foldl (fun a i => insertIdx scores i a) acc → x ∈ acc ∨ x ∈ l := by
  intro l
  induction l with
  | nil =>
    intro acc x h
    exact Or.inl h
  | cons i is ih =>
    intro acc x h
    rcases ih (insertIdx scores i acc) x h with h2 | h2
    · rcases mem_insertIdx.mp h2 with rfl | h3
      · exact Or.inr (List.mem_cons_self _ _)
      · exact Or.inl h3
    · exact Or.inr (List.mem_cons_of_mem _ h2)

theorem mem_argsort {scores : List ℚ} {i : Nat} (h : i ∈ argsort scores) :
    i < scores.length := by
  rcases mem_foldl_insertIdx _ _ _ h with h2 | h2
  · simp at h2
  · exact List.mem_range.mp h2

theorem pairwise_foldl_insertIdx {scores : List ℚ} :
    ∀ (l acc : List Nat),
      acc.Pairwise (fun a b => scores.getD a 0 ≤ scores.getD b 0) →
      (l.foldl (fun a i => insertIdx scores i a) acc).Pairwise
        (fun a b => scores.getD a 0 ≤ scores.getD b 0) := by
  intro l
  induction l with
  | nil =>
    intro acc h
    exact h
  | cons i is ih =>
    intro acc h
    exact ih _ (pairwise_insertIdx h)

theorem pairwise_argsort (scores : List ℚ) :
    (argsort scores).Pairwise (fun a b => scores.getD a 0 ≤ scores.getD b 0) :=
  pairwise_foldl_insertIdx _ _ (List.Pairwise.nil)

theorem length_insertIdx {scores : List ℚ} {i : Nat} :
    ∀ {l : List Nat}, (insertIdx scores i l).length = l.length + 1 := by
  intro l
  induction l with
  | nil => rfl
  | cons j js ih =>
    simp only [insertIdx]
    split
    · simp [ih]
    · rfl

theorem length_foldl_insertIdx {scores : List ℚ} :
    ∀ (l acc : List Nat),
      (l.foldl (fun a i => insertIdx scores i a) acc).length =
        acc.length + l.length := by
  intro l
  induction l with
  | nil =>
    intro acc
    rfl
  | cons i is ih =>
    intro acc
    rw [List.foldl_cons, ih, length_insertIdx]
    simp only [List.length_cons]
    omega

theorem length_argsort (scores : List ℚ) :
    (argsort scores).length = scores.length := by
  rw [argsort, length_foldl_insertIdx]
  simp

theorem lastSlice_sublist (n : Nat) (l : List α) : (lastSlice n l).Sublist l := by
  unfold lastSlice
  split
  · exact List.Sublist.refl l
  · exact List.drop_sublist _ l

theorem length_lastSlice_of_pos (n : Nat) (l : List α) (hn : n ≠ 0) :
    (lastSlice n l).length = l.length - (l.length - n) := by
  unfold lastSlice
  rw [if_neg hn, List.length_drop]

theorem mem_randomSample {x : α} :
    ∀ (k : Nat) (pop : List α) (oracle : List Nat),
      x ∈ randomSample pop k oracle → x ∈ pop := by
  intro k
  induction k with
  | zero =>
    intro pop oracle h
    simp [randomSample] at h
  | succ k ih =>
    intro pop oracle h
    cases pop with
    | nil => simp [randomSample] at h
    | cons p ps =>
      simp only [randomSample] at h
      rcases List.mem_cons.mp h with rfl | h2
      · have hi : (oracle.headD 0 % (p :: ps).length) < (p :: ps).length :=
          Nat.mod_lt _ (by simp)
        rw [List.getD_eq_getElem?_getD, List.getElem?_eq_getElem hi]
        exact List.getElem_mem hi
      · exact (List.eraseIdx_sublist (p :: ps) _).subset (ih _ _ h2)

theorem length_randomSample_le :
    ∀ (k : Nat) (pop : List α) (oracle : List Nat),
      (randomSample pop k oracle).length ≤ k := by
  intro k
  induction k with
  | zero =>
    intro pop oracle
    cases pop <;> simp [randomSample]
  | succ k ih =>
    intro pop oracle
    cases pop with
    | nil => simp [randomSample]
    | cons p ps =>
      simp only [randomSample, List.length_cons]
      exact Nat.succ_le_succ (ih _ _)

theorem mem_tfidfRecs {available : List String} {scores : List ℚ} {n : Nat}
    {r : Recommendation} (h : r ∈ tfidfRecs available scores n) :
    ∃ i, i < scores.length ∧ r.question = available.getD i "" ∧
      r.similarity = scores.getD i 0 ∧ simThreshold < scores.getD i 0 := by
  unfold tfidfRecs at h
  rcases List.mem_map.mp h with ⟨i, hi, rfl⟩
  rcases List.mem_filter.mp hi with ⟨hi2, hp⟩
  have hi3 : i ∈ argsort scores :=
    (lastSlice_sublist _ _).subset (List.mem_reverse.mp hi2)
  exact ⟨i, mem_argsort hi3, rfl, rfl, of_decide_eq_true hp⟩

theorem length_tfidfRecs_le {available : List String} {scores : List ℚ}
    {n : Nat} (hn : n ≠ 0) :
    (tfidfRecs available scores n).length ≤ min n scores.length := by
  unfold tfidfRecs
  rw [List.length_map]
  have h1 := List.length_filter_le
    (fun i => decide (simThreshold < scores.getD i 0))
    (lastSlice n (argsort scores)).reverse
  rw [List.length_reverse, length_lastSlice_of_pos n _ hn, length_argsort] at h1
  omega

theorem pairwise_tfidfRecs (available : List String) (scores : List ℚ)
    (n : Nat) :
    (tfidfRecs available scores n).Pairwise
      (fun a b => b.similarity ≤ a.similarity) := by
  unfold tfidfRecs
  rw [List.pairwise_map]
  have h1 := pairwise_argsort scores
  have h2 := List.Pairwise.sublist (lastSlice_sublist n (argsort scores)) h1
  have h3 : ((lastSlice n (argsort scores)).reverse).Pairwise
      (fun a b => scores.getD b 0 ≤ scores.getD a 0) :=
    List.pairwise_reverse.mpr h2
  exact List.Pairwise.sublist (List.filter_sublist _) h3

theorem not_mem_history_of_mem_available {df : List KnowledgeEntry}
    {hist : List Message} {x : String}
    (hx : x ∈ availableQuestions df hist) : x ∉ historyQuestions hist := by
  unfold availableQuestions at hx
  exact of_decide_eq_true (List.mem_filter.mp hx).2

theorem mem_questions_mem_available {q : String} {df : List KnowledgeEntry}
    {hist : List Message} {n : Nat} {vec : Option (List ℚ)}
    {oracle : List Nat} {x : String}
    (hlen : ∀ s, vec = some s → s.length = (availableQuestions df hist).length)
    (hx : x ∈ (get_smart_recommendations q df hist n vec oracle).questions) :
    x ∈ availableQuestions df hist := by
  unfold get_smart_recommendations at hx
  split at hx
  · simp [RecResult.questions] at hx
  · split at hx
    · simp [RecResult.questions] at hx
    · cases vec with
      | some s =>
        simp only [RecResult.questions] at hx
        rcases List.mem_map.mp hx with ⟨r, hr, rfl⟩
        rcases mem_tfidfRecs hr with ⟨i, hi, hq, _, _⟩
        have hi2 : i < (availableQuestions df hist).length := by
          rw [← hlen s rfl]
          exact hi
        rw [hq, List.getD_eq_getElem?_getD, List.getElem?_eq_getElem hi2,
          Option.getD_some]
        exact List.getElem_mem hi2
      | none =>
        simp only [RecResult.questions] at hx
        exact mem_randomSample _ _ _ hx

/-- Claim C2: no recommended question is among the already-asked questions
(the user-role contents of the chat history), on the TF-IDF path and on the
degraded random fallback path alike. -/
theorem recommendations_exclude_asked (current_question : String)
    (knowledge_df : List KnowledgeEntry) (user_history : List Message)
    (top_n : Nat) (scores : List ℚ) (oracle : List Nat)
    (hlen : scores.length =
      (availableQuestions knowledge_df user_history).length) :
    (∀ x ∈ (get_smart_recommendations current_question knowledge_df
        user_history top_n (some scores) oracle).questions,
      x ∉ historyQuestions user_history) ∧
    (∀ x ∈ (get_smart_recommendations current_question knowledge_df
        user_history top_n none oracle).questions,
      x ∉ historyQuestions user_history) := by
  constructor
  · intro x hx
    refine not_mem_history_of_mem_available
      (mem_questions_mem_available ?_ hx)
    intro s hs
    cases hs
    exact hlen
  · intro x hx
    refine not_mem_history_of_mem_available
      (mem_questions_mem_available ?_ hx)
    intro s hs
    cases hs

/-- A two-question knowledge base and a history in which the first question
was already asked; the available candidate list is then `["qb"]`. -/
def kbT : List KnowledgeEntry := [⟨"c", "qa", ""⟩, ⟨"c", "qb", ""⟩]

/-- History with one user message asking `"qa"`. -/
def histR : List Message := [⟨Role.user, "qa", "p", none⟩]

/-- Witness for claim C2: with candidates `["qa", "qb"]` and `"qa"` already
asked, the recommended question `"qb"` is not among the asked ones. -/
theorem recommendations_exclude_asked_witness :
    ([(1 : ℚ)].length = (availableQuestions kbT histR).length) ∧
    "qb" ∉ historyQuestions histR :=
  ⟨by decide,
    (recommendations_exclude_asked "q" kbT histR 3 [1] [] (by decide)).1
      "qb" (by decide)⟩

/-- Claim C3 (amended): for `top_n ≥ 1`, the number of returned
recommendations is at most `min top_n |available|` on both paths, and every
recommendation returned on the TF-IDF path has similarity strictly greater
than 1/10. (The unstated original claim also covered `top_n = 0`, where the
Python slice `[-0:]` keeps every candidate; see the counterexample.) -/
theorem recommendation_bound (current_question : String)
    (knowledge_df : List KnowledgeEntry) (user_history : List Message)
    (top_n : Nat) (scores : List ℚ) (oracle : List Nat)
    (hn : 1 ≤ top_n)
    (hlen : scores.length =
      (availableQuestions knowledge_df user_history).length) :
    ((get_smart_recommendations current_question knowledge_df user_history
        top_n (some scores) oracle).questions.length ≤
      min top_n (availableQuestions knowledge_df user_history).length) ∧
    ((get_smart_recommendations current_question knowledge_df user_history
        top_n none oracle).questions.length ≤
      min top_n (availableQuestions knowledge_df user_history).length) ∧
    (∀ recs, get_smart_recommendations current_question knowledge_df
        user_history top_n (some scores) oracle = .items recs →
      ∀ r ∈ recs, (1/10 : ℚ) < r.similarity) := by
  refine ⟨?_, ?_, ?_⟩
  · unfold get_smart_recommendations
    split
    · simp [RecResult.questions]
    · split
      · simp [RecResult.questions]
      · simp only [RecResult.questions, List.length_map]
        have h := @length_tfidfRecs_le
          (availableQuestions knowledge_df user_history) scores top_n
          (by omega)
        rw [hlen] at h
        exact h
  · unfold get_smart_recommendations
    split
    · simp [RecResult.questions]
    · split
      · simp [RecResult.questions]
      · simp only [RecResult.questions]
        exact length_randomSample_le _ _ _
  · intro recs h r hr
    unfold get_smart_recommendations at h
    split at h
    · injection h with h2
      rw [← h2] at hr
      simp at hr
    · split at h
      · injection h with h2
        rw [← h2] at hr
        simp at hr
      · injection h with h2
        rw [← h2] at hr
        rcases mem_tfidfRecs hr with ⟨i, _, _, hsim, hth⟩
        rw [hsim, ← simThreshold_eq]
        exact hth

/-- A one-question knowledge base used in the counterexamples. -/
def kbC : List KnowledgeEntry := [⟨"c", "qa", "x"⟩]

/-- Counterexample to claim C3 as stated: at `top_n = 0` the Python slice
`argsort()[-top_n:]` is `[-0:]`, the whole index list, so with one available
candidate of score 1 the recommender returns one item although the claimed
bound `min(top_n, |available|)` is 0. -/
theorem recommendation_bound_cex :
    ¬ ((get_smart_recommendations "q" kbC [] 0 (some [1]) []).questions.length ≤
      min 0 (availableQuestions kbC []).length) := by decide

/-- Witness for claim C3 (amended), at `top_n = 3` over one available
candidate with score 1. -/
theorem recommendation_bound_witness :
    (1 ≤ 3) ∧
    ([(1 : ℚ)].length = (availableQuestions kbT histR).length) ∧
    ((get_smart_recommendations "q" kbT histR 3 (some [1]) []).questions.length ≤
      min 3 (availableQuestions kbT histR).length) :=
  ⟨by decide, by decide,
    (recommendation_bound "q" kbT histR 3 [1] [] (by decide) (by decide)).1⟩

/-- Claim C4 (amended): on the TF-IDF path the returned recommendations are
ordered by non-increasing similarity score. (Candidates with equal scores do
not keep the original candidate order — the ascending argsort is sliced and
reversed, so ties come out in reverse candidate order; see the
counterexample.) -/
theorem recommendations_sorted_descending (current_question : String)
    (knowledge_df : List KnowledgeEntry) (user_history : List Message)
    (top_n : Nat) (scores : List ℚ) (oracle : List Nat)
    (recs : List Recommendation)
    (h : get_smart_recommendations current_question knowledge_df user_history
      top_n (some scores) oracle = .items recs) :
    recs.Pairwise (fun a b => b.similarity ≤ a.similarity) := by
  unfold get_smart_recommendations at h
  split at h
  · injection h with h2
    rw [← h2]
    exact List.Pairwise.nil
  · split at h
    · injection h with h2
      rw [← h2]
      exact List.Pairwise.nil
    · injection h with h2
      rw [← h2]
      exact pairwise_tfidfRecs _ _ _

/-- Counterexample to claim C4 as stated: with candidates `["qa", "qb"]` and
equal scores, the returned order is `["qb", "qa"]`, the reverse of the
original candidate order, not the claimed stable original order. -/
theorem recommendations_sorted_cex :
    (get_smart_recommendations "q" kbT [] 3 (some [1, 1]) []).questions =
      ["qb", "qa"] ∧
    (get_smart_recommendations "q" kbT [] 3 (some [1, 1]) []).questions ≠
      ["qa", "qb"] := by decide

/-- Witness for claim C4 (amended), at one available candidate of score 1. -/
theorem recommendations_sorted_descending_witness :
    (get_smart_recommendations "q" kbT histR 3 (some [1]) [] =
      .items [⟨"qb", 1⟩]) ∧
    List.Pairwise (fun a b => b.similarity ≤ a.similarity)
      [({ question := "qb", similarity := 1 } : Recommendation)] :=
  ⟨by decide,
    recommendations_sorted_descending "q" kbT histR 3 [1] [] [⟨"qb", 1⟩]
      (by decide)⟩

/-- Whether a recommender result is a list of question/score dictionaries. -/
def RecResult.isItems : RecResult → Bool
  | .items _ => true
  | .raw _ => false

/-- Claim C5: when vectorization fails, `get_smart_recommendations` returns
`random.sample(available_questions, min(top_n, len(available_questions)))` —
a list of bare question strings, not the question/score dictionaries of the
success path. Evaluating the embedding at such a failing call shows the
result is the raw-strings shape, so the fallback does not conform to the
claimed `{question, score}` return contract (the caller
`display_smart_recommendations` indexes every entry with `rec["question"]`,
which fails on a string). -/
theorem fallback_shape_bug :
    get_smart_recommendations "你好" kbC [] 3 none [0] = .raw ["qa"] ∧
    (get_smart_recommendations "你好" kbC [] 3 none [0]).isItems = false := by
  decide

/-! ## Completion stream

Embedding of `get_ai_response_stream` (app.py lines 893-909). The call to
the ZhipuAI streaming endpoint is modelled by `serviceResponse`:
`some chunks` is a successful call whose per-chunk delta contents are
`chunks` (an absent/None content is modelled as the empty string, which the
generator comprehension filters out), and `none` is the `except` branch. -/

/-- The fixed apology fragment yielded by `error_generator` (app.py 907). -/
def apology : String := "抱歉，AI服务暂时不可用。"

/-- Embedding of `get_ai_response_stream`: on success, the non-empty delta
contents in order; on failure, the single fixed apology fragment. -/
def get_ai_response_stream (serviceResponse : Option (List String)) :
    List String :=
  match serviceResponse with
  | some chunks => chunks.filter (fun c => !c.data.isEmpty)
  | none => [apology]

/-- Embedding of `st.write_stream` (app.py 1473), which concatenates the consumed fragments into
the full response text. -/
def assembleStream (fragments : List String) : String :=
  fragments.foldl (fun acc c => acc ++ c) ""

/-- Counterexample to claim C8 as stated: a successful service call whose
only chunk has empty delta content yields a stream with zero fragments, so
not every stream returned by the orchestrator has at least one fragment. -/
theorem stream_min_fragment_cex :
    ¬ (1 ≤ (get_ai_response_stream (some [""])).length) := by decide

/-- Claim C8 (amended): when the completion service invocation fails, the
returned stream is exactly the one fixed apologetic fragment, and the
assembled assistant message content equals that single apology string.
(Streams of successful invocations can be empty when the service yields no
non-empty delta, so the at-least-one-fragment guarantee holds only on the
failure path.) -/
theorem error_stream_single_apology :
    get_ai_response_stream none = [apology] ∧
    (get_ai_response_stream none).length = 1 ∧
    assembleStream (get_ai_response_stream none) = apology := by
  refine ⟨rfl, rfl, ?_⟩
  show "" ++ apology = apology
  decide

/-! ## Rating -/

/-- Embedding of `rate_response(message_index, rating)` (app.py lines
1107-1145): when the index is in range and positive, the preceding message
is a user message and the indexed message is an assistant message, and the
feedback save succeeded (`saveOk`), the rating field of the indexed message
is overwritten; otherwise the transcript is unchanged. Note the function
itself never checks for an existing rating. -/
def rate_response (message_index : Nat) (rating : Rating) (saveOk : Bool)
    (msgs : List Message) : List Message :=
  if message_index < msgs.length then
    if 0 < message_index then
      if (msgs.getD (message_index - 1) default).role = Role.user ∧
          (msgs.getD message_index default).role = Role.assistant then
        if saveOk then
          msgs.set message_index
            { msgs.getD message_index default with rating := some rating }
        else msgs
      else msgs
    else msgs
  else msgs

/-- Embedding of a rating-button click in `display_rating_buttons` (app.py
lines 1160-1174): both buttons carry `disabled=current_rating is not None`,
so a click reaches `rate_response` only when the message has no rating. -/
def display_rating_click (message_index : Nat) (rating : Rating)
    (saveOk : Bool) (msgs : List Message) : List Message :=
  if ((msgs.getD message_index default).rating).isSome then msgs
  else rate_response message_index rating saveOk msgs

theorem display_rating_click_of_rated {msgs : List Message} {i : Nat}
    {r : Rating} {saveOk : Bool}
    (h : ((msgs.getD i default).rating).isSome = true) :
    display_rating_click i r saveOk msgs = msgs := by
  unfold display_rating_click
  rw [if_pos h]

/-- Claim C6: rating is idempotent-once. For an unrated assistant message at
a positive in-range index preceded by a user message, a good-rating click
(with the feedback save succeeding) sets the rating to good, and any
subsequent rating click on the same index is a no-op because the buttons are
disabled once a rating exists — the rating field is written exactly once and
stays good. -/
theorem rating_idempotent_once (msgs : List Message) (i : Nat)
    (r2 : Rating) (saveOk2 : Bool)
    (hlen : i < msgs.length) (hpos : 0 < i)
    (hq : (msgs.getD (i - 1) default).role = Role.user)
    (ha : (msgs.getD i default).role = Role.assistant)
    (hnone : (msgs.getD i default).rating = none) :
    ((display_rating_click i Rating.good true msgs).getD i default).rating =
      some Rating.good ∧
    display_rating_click i r2 saveOk2
        (display_rating_click i Rating.good true msgs) =
      display_rating_click i Rating.good true msgs := by
  have hclick : display_rating_click i Rating.good true msgs =
      msgs.set i { msgs.getD i default with rating := some Rating.good } := by
    unfold display_rating_click
    rw [hnone]
    simp only [Option.isSome_none, Bool.false_eq_true, if_false]
    unfold rate_response
    rw [if_pos hlen, if_pos hpos, if_pos ⟨hq, ha⟩, if_pos rfl]
  have hlen2 : i < (msgs.set i
      { msgs.getD i default with rating := some Rating.good }).length := by
    simpa using hlen
  have hfst : ((display_rating_click i Rating.good true msgs).getD i
      default).rating = some Rating.good := by
    rw [hclick, List.getD_eq_getElem?_getD, List.getElem?_eq_getElem hlen2,
      Option.getD_some, List.getElem_set_self]
  exact ⟨hfst, display_rating_click_of_rated (by rw [hfst]; rfl)⟩

/-- A transcript with one user question followed by one unrated assistant
answer. -/
def msgsW : List Message :=
  [⟨Role.user, "q", "p", none⟩, ⟨Role.assistant, "a", "p", none⟩]

/-- Witness for claim C6: rating message 1 of `msgsW` good and then clicking
bad leaves the rating good. -/
theorem rating_idempotent_once_witness :
    (1 < msgsW.length) ∧ (0 < 1) ∧
    ((msgsW.getD 0 default).role = Role.user) ∧
    ((msgsW.getD 1 default).role = Role.assistant) ∧
    ((msgsW.getD 1 default).rating = none) ∧
    (((display_rating_click 1 Rating.good true msgsW).getD 1 default).rating =
      some Rating.good) ∧
    (display_rating_click 1 Rating.bad false
        (display_rating_click 1 Rating.good true msgsW) =
      display_rating_click 1 Rating.good true msgsW) :=
  ⟨by decide, by decide, by decide, by decide, by decide,
    (rating_idempotent_once msgsW 1 Rating.bad false (by decide) (by decide)
      (by decide) (by decide) (by decide)).1,
    (rating_idempotent_once msgsW 1 Rating.bad false (by decide) (by decide)
      (by decide) (by decide) (by decide)).2⟩

/-! ## Persistence -/

/-- One record of `user_chat_history.json` as written by `save_chat_history`
(app.py lines 312-319). -/
structure ChatData where
  username : String
  user_role : String
  timestamp : String
  messages : List Message
  asked_questions : List String
  selected_category : Option String
deriving DecidableEq

/-- The update step of `save_chat_history` (app.py lines 329-341): scan for
the first record with the same username and replace it in place, otherwise
append the new record at the end. -/
def upsert_chat (chat : ChatData) : List ChatData → List ChatData
  | [] => [chat]
  | c :: cs =>
    if c.username = chat.username then chat :: cs
    else c :: upsert_chat chat cs

/-- The slice of `st.session_state` involved in saving and clearing. -/
structure AppState where
  logged_in : Bool
  username : String
  user_role : String
  messages : List Message
  asked_questions : List String
  selected_category : Option String
  question_to_ask : Option String
deriving DecidableEq

/-- Embedding of `save_chat_history()` (app.py lines 306-350): a guarded
no-op returning `False` when not logged in or the transcript is empty,
otherwise an upsert into the durable collection returning `True`. -/
def save_chat_history (s : AppState) (timestamp : String)
    (all_chats : List ChatData) : Bool × List ChatData :=
  if s.logged_in = false ∨ s.messages = [] then (false, all_chats)
  else
    (true, upsert_chat
      ⟨s.username, s.user_role, timestamp, s.messages, s.asked_questions,
        s.selected_category⟩ all_chats)

/-- The state reset performed by the clear-session button (app.py lines
1392-1395). -/
def clear_session (s : AppState) : AppState :=
  { s with
      messages := []
      asked_questions := []
      selected_category := none
      question_to_ask := none }

theorem countP_upsert_self (chat : ChatData) :
    ∀ l : List ChatData,
      (upsert_chat chat l).countP (fun c => decide (c.username = chat.username)) =
        max (l.countP (fun c => decide (c.username = chat.username))) 1 := by
  intro l
  induction l with
  | nil => simp [upsert_chat]
  | cons c cs ih =>
    simp only [upsert_chat]
    split
    · rename_i hc
      rw [List.countP_cons_of_pos _ _ (by simp), List.countP_cons_of_pos _ _ (by simp [hc])]
      omega
    · rename_i hc
      rw [List.countP_cons_of_neg _ _ (by simp [hc]), List.countP_cons_of_neg _ _ (by simp [hc]), ih]

theorem countP_upsert_other (chat : ChatData) (u : String)
    (hu : chat.username ≠ u) :
    ∀ l : List ChatData,
      (upsert_chat chat l).countP (fun c => decide (c.username = u)) =
        l.countP (fun c => decide (c.username = u)) := by
  intro l
  induction l with
  | nil => simp [upsert_chat, hu]
  | cons c cs ih =>
    simp only [upsert_chat]
    split
    · rename_i hc
      rw [List.countP_cons, List.countP_cons]
      simp only [decide_eq_true_eq]
      rw [if_neg hu, if_neg (by rw [hc]; exact hu)]
    · rw [List.countP_cons, List.countP_cons, ih]

theorem upsert_unique (chat : ChatData) :
    ∀ l : List ChatData,
      l.countP (fun c => decide (c.username = chat.username)) ≤ 1 →
      ∀ x ∈ upsert_chat chat l, x.username = chat.username → x = chat := by
  intro l
  induction l with
  | nil =>
    intro _ x hx _
    simp only [upsert_chat, List.mem_singleton] at hx
    exact hx
  | cons c cs ih =>
    intro hcount x hx hu
    simp only [upsert_chat] at hx
    by_cases hc : c.username = chat.username
    · rw [if_pos hc] at hx
      rcases List.mem_cons.mp hx with rfl | hx2
      · rfl
      · exfalso
        have h1 : 0 < cs.countP (fun c => decide (c.username = chat.username)) :=
          List.countP_pos_iff.mpr ⟨x, hx2, by simp [hu]⟩
        rw [List.countP_cons_of_pos _ _ (by simp [hc])] at hcount
        omega
    · rw [if_neg hc] at hx
      rcases List.mem_cons.mp hx with rfl | hx2
      · exact absurd hu hc
      · refine ih ?_ x hx2 hu
        rw [List.countP_cons_of_neg _ _ (by simp [hc])] at hcount
        exact hcount

/-- Claim C7: starting from a durable collection holding at most one record
per identity, a save preserves that invariant (the existing record is
replaced in place, or a new one appended), and two successive saves for the
same identity leave exactly one record for that identity, holding the second
save content. -/
theorem persistence_upsert (all_chats : List ChatData) (c1 c2 : ChatData)
    (hinv : ∀ u, all_chats.countP (fun c => decide (c.username = u)) ≤ 1)
    (hsame : c1.username = c2.username) :
    (∀ u, (upsert_chat c1 all_chats).countP
      (fun c => decide (c.username = u)) ≤ 1) ∧
    ((upsert_chat c2 (upsert_chat c1 all_chats)).countP
      (fun c => decide (c.username = c2.username)) = 1) ∧
    (∀ x ∈ upsert_chat c2 (upsert_chat c1 all_chats),
      x.username = c2.username → x = c2) := by
  have h1 : (upsert_chat c1 all_chats).countP
      (fun c => decide (c.username = c2.username)) = 1 := by
    rw [← hsame, countP_upsert_self]
    have := hinv c1.username
    omega
  refine ⟨?_, ?_, ?_⟩
  · intro u
    by_cases hu : c1.username = u
    · subst hu
      rw [countP_upsert_self]
      have := hinv c1.username
      omega
    · rw [countP_upsert_other c1 u hu]
      exact hinv u
  · rw [countP_upsert_self, h1]
    omega
  · exact upsert_unique c2 _ (le_of_eq h1)

/-- Two persisted-session records for the same identity with different
content. -/
def chat1W : ChatData :=
  ⟨"u", "visitor", "t1", [⟨Role.user, "q1", "p", none⟩], ["q1"], some "History"⟩

/-- Second save for the same identity as `chat1W`. -/
def chat2W : ChatData :=
  ⟨"u", "visitor", "t2", [⟨Role.user, "q2", "p", none⟩], ["q2"], some "Food"⟩

/-- Witness for claim C7: saving `chat1W` and then `chat2W` into the empty
collection leaves exactly one record for the shared identity. -/
theorem persistence_upsert_witness :
    (chat1W.username = chat2W.username) ∧
    ((upsert_chat chat2W (upsert_chat chat1W [])).countP
      (fun c => decide (c.username = chat2W.username)) = 1) :=
  ⟨rfl, (persistence_upsert [] chat1W chat2W (fun _ => by simp) rfl).2.1⟩

/-- Claim C10: the save is a guarded no-op, returning `False` and leaving
the durable collection untouched, whenever the user is not logged in or the
transcript is empty; in particular saving right after a session clear never
writes (so it cannot overwrite a previously persisted non-empty session with
an empty one). -/
theorem save_guard_noop :
    (∀ (s : AppState) (ts : String) (chats : List ChatData),
      (s.logged_in = false ∨ s.messages = []) →
      save_chat_history s ts chats = (false, chats)) ∧
    (∀ (s : AppState) (ts : String) (chats : List ChatData),
      save_chat_history (clear_session s) ts chats = (false, chats)) := by
  constructor
  · intro s ts chats h
    unfold save_chat_history
    rw [if_pos h]
  · intro s ts chats
    unfold save_chat_history clear_session
    rw [if_pos (Or.inr rfl)]

/-- A logged-in session with a non-empty transcript. -/
def stateW : AppState :=
  ⟨true, "u", "visitor", [⟨Role.user, "q", "p", none⟩], ["q"], some "History",
    none⟩

/-- A logged-out session. -/
def stateOut : AppState := ⟨false, "u", "visitor", [], [], none, none⟩

/-- Witness for claim C10: a save while logged out and a save right after
clearing `stateW` both return `False` and leave the collection unchanged. -/
theorem save_guard_noop_witness :
    (stateOut.logged_in = false ∨ stateOut.messages = []) ∧
    (save_chat_history stateOut "t" [chat1W] = (false, [chat1W])) ∧
    (save_chat_history (clear_session stateW) "t" [chat1W] =
      (false, [chat1W])) :=
  ⟨Or.inl rfl, save_guard_noop.1 stateOut "t" [chat1W] (Or.inl rfl),
    save_guard_noop.2 stateW "t" [chat1W]⟩

end HuaiAnApp
